import Mathlib

/-!
Shallow embedding of the daddle chunk pool and response assembly engine
(`src/chunk_pool.rs`, `src/streaming.rs`).

Modelling conventions:
* Rust `usize` arithmetic is `Nat`; `saturating_sub` and plain `-` on `usize`
  are Lean's truncated `Nat` subtraction (the code never relies on wrap).
* A `Vec<String>` of fragments is a `List String` in the same order;
  `Vec::pop` removes the last element (`getLast?` / `dropLast`) and
  `Vec::extend` appends at the end (`++`).
* The random content generator (`generator.rs`) is an external collaborator
  per the spec; it is embedded as an oracle `Gen` of opaque string-valued
  functions indexed by a call counter, so each generation call may return a
  different value.  The `serde_json::to_string(..).unwrap_or_else(..)`
  sentinel fallback is absorbed into the oracle (the oracle yields the final
  serialized string either way).
* Shared mutable state (`RwLock<HashMap<..>>`, `Mutex<ChunkPoolStats>`) is
  threaded as explicit `Pool`/`ChunkPoolStats` values.  The pool is modelled
  after `lazy_initialize` has run, i.e. with an entry for every class.
* Rust `while` loops are embedded as structural recursion on a fuel value
  that mirrors the loop's own iteration bound exactly: in `build_response`
  the bound is `chunk_count < 1000` and `fuel = 1000 - chunk_count`; in the
  streaming loop the bound is `chunk_count < total_chunks` and
  `fuel = total_chunks - chunk_count`.  The counter itself is still carried
  as data, exactly as in the source.
* The emitted JSON text is built with the same string concatenations as the
  source; each assembler additionally records, as ghost data, the list of
  array elements it appended and the metadata numbers it printed, so that
  claims about the document's structure can be stated without a JSON parser.
-/

namespace Daddle

/-- Size classes of pre-generated fragments (`ChunkSize` in chunk_pool.rs). -/
inductive ChunkSize where
  | Small
  | Medium
  | Large
  | XLarge
deriving DecidableEq

/-- Nominal byte size of each class (`ChunkSize::target_bytes`). -/
def ChunkSize.target_bytes : ChunkSize → Nat
  | ChunkSize.Small => 1024
  | ChunkSize.Medium => 10240
  | ChunkSize.Large => 102400
  | ChunkSize.XLarge => 1048576

/-- All size classes in declaration order (`ChunkSize::all`). -/
def ChunkSize.allSizes : List ChunkSize :=
  [ChunkSize.Small, ChunkSize.Medium, ChunkSize.Large, ChunkSize.XLarge]

/-- Pool configuration (`ChunkPoolConfig`). -/
structure ChunkPoolConfig where
  max_memory_mb : Nat
  min_chunks_per_size : Nat
  max_chunks_per_size : Nat
  background_generation_interval_ms : Nat
  memory_check_interval_ms : Nat
deriving DecidableEq

/-- Default configuration (`ChunkPoolConfig::default`). -/
def defaultConfig : ChunkPoolConfig := ⟨128, 5, 50, 1000, 5000⟩

/-- The fragment cache after `lazy_initialize`: one `Vec<String>` per class
(the `chunks: RwLock<HashMap<ChunkSize, Vec<String>>>` field). -/
structure Pool where
  small : List String
  medium : List String
  large : List String
  xlarge : List String
deriving DecidableEq

/-- The `Vec` stored for one class. -/
def Pool.classChunks (p : Pool) : ChunkSize → List String
  | ChunkSize.Small => p.small
  | ChunkSize.Medium => p.medium
  | ChunkSize.Large => p.large
  | ChunkSize.XLarge => p.xlarge

/-- Replace the `Vec` stored for one class. -/
def Pool.setClass (p : Pool) (cs : ChunkSize) (v : List String) : Pool :=
  match cs with
  | ChunkSize.Small => ⟨v, p.medium, p.large, p.xlarge⟩
  | ChunkSize.Medium => ⟨p.small, v, p.large, p.xlarge⟩
  | ChunkSize.Large => ⟨p.small, p.medium, v, p.xlarge⟩
  | ChunkSize.XLarge => ⟨p.small, p.medium, p.large, v⟩

/-- Pool statistics (`ChunkPoolStats`): fields in declaration order are
`total_chunks`, `memory_usage_bytes`, `cache_hits`, `cache_misses`,
`background_generations`. -/
structure ChunkPoolStats where
  total_chunks : Nat
  memory_usage_bytes : Nat
  cache_hits : Nat
  cache_misses : Nat
  background_generations : Nat
deriving DecidableEq

/-- The opaque random content source (`RandomDataGenerator`), as an oracle.
`arrElem i n` is the serialized string obtained from the `i`-th call to
`generate_array_element(n)` followed by `serde_json::to_string` (with its
sentinel fallback); `payload n` is the serialized result of
`generate_payload(n)`. -/
structure Gen where
  arrElem : Nat → Nat → String
  payload : Nat → String

/-- Decimal digits of a natural number, via a structural fuel argument so the
kernel can evaluate it (`usize::to_string` rendering). -/
def natDigitsAux : Nat → Nat → List Char
  | 0, _ => []
  | fuel + 1, n =>
    if n < 10 then [Nat.digitChar n]
    else natDigitsAux fuel (n / 10) ++ [Nat.digitChar (n % 10)]

/-- Decimal rendering of a natural number (`usize::to_string`). -/
def natToString (n : Nat) : String := String.mk (natDigitsAux (n + 1) n)

/-- Pop one fragment of the requested class (`ChunkPool::get_chunk`).
Returns the popped fragment (if any) together with the updated pool and
stats: on a hit `cache_hits` is bumped and `total_chunks` saturating-
decremented; on a miss only `cache_misses` is bumped.  The function has no
access to the generator at all, mirroring that `get_chunk` never generates
content. -/
def get_chunk (pool : Pool) (stats : ChunkPoolStats) (size : ChunkSize) :
    Option String × Pool × ChunkPoolStats :=
  match (pool.classChunks size).getLast? with
  | some c =>
      (some c, pool.setClass size (pool.classChunks size).dropLast,
        ⟨stats.total_chunks - 1, stats.memory_usage_bytes,
          stats.cache_hits + 1, stats.cache_misses, stats.background_generations⟩)
  | none =>
      (none, pool,
        ⟨stats.total_chunks, stats.memory_usage_bytes,
          stats.cache_hits, stats.cache_misses + 1, stats.background_generations⟩)

/-- Largest size class whose nominal size does not exceed `remaining`
(the chained `if remaining >= ..target_bytes()` selection that appears both
in `ChunkPool::build_response` and, applied to its `target_size` argument,
in `StreamingGarbleResponse::get_pooled_chunk`). -/
def chooseChunkSize (remaining : Nat) : ChunkSize :=
  if ChunkSize.XLarge.target_bytes ≤ remaining then ChunkSize.XLarge
  else if ChunkSize.Large.target_bytes ≤ remaining then ChunkSize.Large
  else if ChunkSize.Medium.target_bytes ≤ remaining then ChunkSize.Medium
  else ChunkSize.Small

/-- Metadata block of an enveloped response, as structured ghost data.
`streaming = true` records that the rendered block carries a
`"streaming":true` member (only the streaming path prints one). -/
structure Metadata where
  generated_by : String
  target_size : Nat
  actual_size : Nat
  chunk_count : Nat
  streaming : Bool
deriving DecidableEq

/-- Structured view of a produced document: either a bare freeform payload
(no envelope) or an envelope with exactly one `garbled_chunks` element list
and one metadata block. -/
inductive Doc where
  | direct (payload : String)
  | envelope (elems : List String) (meta : Metadata)
deriving DecidableEq

/-- Metadata of a document (dummy all-zero block for a direct document). -/
def Doc.metaOf : Doc → Metadata
  | Doc.direct _ => ⟨"", 0, 0, 0, false⟩
  | Doc.envelope _ m => m

/-- Chunk-count consistency of a document: the printed `chunk_count` equals
the number of elements of the `garbled_chunks` array. -/
def Doc.countOk : Doc → Prop
  | Doc.direct _ => True
  | Doc.envelope elems m => m.chunk_count = elems.length

/-- Envelope opener `{"garbled_chunks":[` shared by all enveloped paths. -/
def gcOpen : String := "\x7b\"garbled_chunks\":["

/-- First fixed piece of `build_response`'s metadata suffix. -/
def cpMetaA : String := "],\"metadata\":\x7b\"generated_by\":\"chunk_pool\",\"target_size\":"

/-- Second fixed piece of `build_response`'s metadata suffix. -/
def cpMetaB : String := ",\"actual_size\":"

/-- Third fixed piece of `build_response`'s metadata suffix. -/
def cpMetaC : String := ",\"chunk_count\":"

/-- Closing braces of a metadata suffix. -/
def metaClose : String := "\x7d\x7d"

/-- State carried through the `build_response` assembly loop.  `elems` is
ghost data recording the array elements appended so far. -/
structure LoopOut where
  result : String
  elems : List String
  remaining : Nat
  chunk_count : Nat
  pool : Pool
  stats : ChunkPoolStats
  genIdx : Nat
deriving DecidableEq

/-- The `while remaining > 500 && chunk_count < 1000` loop of
`ChunkPool::build_response`.  `fuel` mirrors `1000 - chunk_count` (the
caller starts it at `1000` with `chunk_count = 0`), making the recursion
structural; all other state is exactly the source's. -/
def buildLoop (g : Gen) (target : Nat) :
    Nat → String → List String → Nat → Nat → Bool → Pool → ChunkPoolStats → Nat → LoopOut
  | 0, result, elems, remaining, chunk_count, _, pool, stats, genIdx =>
      ⟨result, elems, remaining, chunk_count, pool, stats, genIdx⟩
  | fuel + 1, result, elems, remaining, chunk_count, first, pool, stats, genIdx =>
    if 500 < remaining then
      let result1 := if first then result else result.push ','
      match get_chunk pool stats (chooseChunkSize remaining) with
      | (some c, pool1, stats1) =>
        let result2 := result1 ++ c
        if target * 2 < result2.length then
          ⟨result2, elems ++ [c], remaining - c.length, chunk_count + 1, pool1, stats1, genIdx⟩
        else
          buildLoop g target fuel result2 (elems ++ [c]) (remaining - c.length)
            (chunk_count + 1) false pool1 stats1 genIdx
      | (none, pool1, stats1) =>
        let c := g.arrElem genIdx (min remaining ChunkSize.Small.target_bytes)
        let result2 := result1 ++ c
        if target * 2 < result2.length then
          ⟨result2, elems ++ [c], remaining - c.length, chunk_count + 1, pool1, stats1, genIdx + 1⟩
        else
          buildLoop g target fuel result2 (elems ++ [c]) (remaining - c.length)
            (chunk_count + 1) false pool1 stats1 (genIdx + 1)
    else ⟨result, elems, remaining, chunk_count, pool, stats, genIdx⟩

/-- Result of one of the buffered assemblers.  `output` is the full emitted
string; `doc` is its structured (ghost) view; `body` is the accumulated
string at the moment the element loop finished, i.e. before any byte of the
metadata suffix was pushed; `loopRemaining` is the loop's final remaining
budget. -/
structure BuildOut where
  doc : Doc
  output : String
  body : String
  loopRemaining : Nat
  pool : Pool
  stats : ChunkPoolStats
  genIdx : Nat
deriving DecidableEq

/-- `ChunkPool::build_response`.  For `target_size` below the Small nominal
size it serializes one freshly generated payload (no envelope, no pool
access); otherwise it runs the assembly loop and appends the metadata
suffix, computing `actual_size` as `result.len()` at the exact point the
source reads it (after `target_size` and the `actual_size` label were
already pushed). -/
def build_response (g : Gen) (pool : Pool) (stats : ChunkPoolStats) (genIdx : Nat)
    (target_size : Nat) : BuildOut :=
  if target_size < ChunkSize.Small.target_bytes then
    let payload := g.payload target_size
    ⟨Doc.direct payload, payload, payload, 0, pool, stats, genIdx⟩
  else
    let lo := buildLoop g target_size 1000 gcOpen [] target_size 0 true pool stats genIdx
    let r1 := lo.result ++ cpMetaA ++ natToString target_size ++ cpMetaB
    let actual_size := r1.length
    let out := r1 ++ natToString actual_size ++ cpMetaC ++ natToString lo.chunk_count ++ metaClose
    ⟨Doc.envelope lo.elems ⟨"chunk_pool", target_size, actual_size, lo.chunk_count, false⟩,
      out, lo.result, lo.remaining, lo.pool, lo.stats, lo.genIdx⟩

/-- Rust `usize::div_ceil`. -/
def divCeil (a b : Nat) : Nat := a / b + (if a % b = 0 then 0 else 1)

/-- First fixed piece of `build_parallel`'s metadata suffix. -/
def plMetaA : String := "],\"metadata\":\x7b\"generated_by\":\"parallel\",\"target_size\":"

/-- Fragment production of `FastGarbleResponse::build_parallel`: for each
slice index, try a Large pool pop, else generate one element sized
`min(target - i * chunk_size, chunk_size)`.  The rayon fan-out is modelled
as a sequential pass in slice order (fragment consumption is at-most-once
either way). -/
def parallelChunks (g : Gen) (target cs : Nat) :
    Nat → Nat → Pool → ChunkPoolStats → Nat → List String × Pool × ChunkPoolStats × Nat
  | 0, _, pool, stats, genIdx => ([], pool, stats, genIdx)
  | n + 1, i, pool, stats, genIdx =>
    match get_chunk pool stats ChunkSize.Large with
    | (some c, pool1, stats1) =>
      let r := parallelChunks g target cs n (i + 1) pool1 stats1 genIdx
      (c :: r.1, r.2)
    | (none, pool1, stats1) =>
      let c := g.arrElem genIdx (min (target - i * cs) cs)
      let r := parallelChunks g target cs n (i + 1) pool1 stats1 (genIdx + 1)
      (c :: r.1, r.2)

/-- Comma-joined concatenation of array elements (the `for (i, chunk)` loop
of `build_parallel`: a comma before every element except the first). -/
def sepConcat : List String → String
  | [] => ""
  | x :: xs => x ++ String.join (xs.map fun c => "," ++ c)

/-- `FastGarbleResponse::build_parallel`: slice the target into Large-sized
pieces, produce each piece from the pool or the generator, then assemble one
envelope whose `actual_size` is `result.len()` measured after the elements,
`target_size` and `chunk_count` fields were pushed (but before the
`actual_size` digits themselves and the closing braces). -/
def build_parallel (g : Gen) (pool : Pool) (stats : ChunkPoolStats) (genIdx : Nat)
    (target_size : Nat) : BuildOut :=
  let cs := ChunkSize.Large.target_bytes
  let num_chunks := divCeil target_size cs
  let pc := parallelChunks g target_size cs num_chunks 0 pool stats genIdx
  let chunks := pc.1
  let body := gcOpen ++ sepConcat chunks
  let r1 := body ++ plMetaA ++ natToString target_size ++ cpMetaC ++
    natToString chunks.length ++ cpMetaB
  let actual_size := r1.length
  let out := r1 ++ natToString actual_size ++ metaClose
  ⟨Doc.envelope chunks ⟨"parallel", target_size, actual_size, chunks.length, false⟩,
    out, body, 0, pc.2.1, pc.2.2.1, pc.2.2.2⟩

/-- `FastGarbleResponse::build`: delegate to the pool's `build_response`
below 100,000 bytes, otherwise assemble in parallel. -/
def fast_build (g : Gen) (pool : Pool) (stats : ChunkPoolStats) (genIdx : Nat)
    (target_size : Nat) : BuildOut :=
  if target_size < 100000 then build_response g pool stats genIdx target_size
  else build_parallel g pool stats genIdx target_size

/-- Adaptive stream fragment size chosen at `StreamingGarbleResponse::new`. -/
def streaming_chunk_size (target_size : Nat) : Nat :=
  if 10000000 < target_size then ChunkSize.XLarge.target_bytes
  else if 1000000 < target_size then ChunkSize.Large.target_bytes
  else ChunkSize.Medium.target_bytes

/-- State carried through the streaming emission loop.  `items` is the
sequence of strings yielded so far (separators are separate yields, as in
the source); `elems` is ghost data recording just the array elements. -/
structure SLoopOut where
  items : List String
  elems : List String
  remaining : Nat
  chunk_count : Nat
  pool : Pool
  stats : ChunkPoolStats
  genIdx : Nat
deriving DecidableEq

/-- The `while remaining > 500 && chunk_count < total_chunks` loop of
`StreamingGarbleResponse::into_stream`.  `fuel` mirrors
`total_chunks - chunk_count` (the caller starts it at `total_chunks` with
`chunk_count = 0`).  Each iteration yields a separator (except before the
first element), pops the pool class given by the largest-fits rule applied
to `min remaining chunk_size`, falls back to generating an element of that
same size, and subtracts the fragment's true length from `remaining`. -/
def streamLoop (g : Gen) (chunk_size : Nat) :
    Nat → List String → List String → Nat → Nat → Pool → ChunkPoolStats → Nat → SLoopOut
  | 0, items, elems, remaining, chunk_count, pool, stats, genIdx =>
      ⟨items, elems, remaining, chunk_count, pool, stats, genIdx⟩
  | fuel + 1, items, elems, remaining, chunk_count, pool, stats, genIdx =>
    if 500 < remaining then
      let items1 := if 0 < chunk_count then items ++ [","] else items
      let current := min remaining chunk_size
      match get_chunk pool stats (chooseChunkSize current) with
      | (some c, pool1, stats1) =>
        streamLoop g chunk_size fuel (items1 ++ [c]) (elems ++ [c])
          (remaining - c.length) (chunk_count + 1) pool1 stats1 genIdx
      | (none, pool1, stats1) =>
        let c := g.arrElem genIdx current
        streamLoop g chunk_size fuel (items1 ++ [c]) (elems ++ [c])
          (remaining - c.length) (chunk_count + 1) pool1 stats1 (genIdx + 1)
    else ⟨items, elems, remaining, chunk_count, pool, stats, genIdx⟩

/-- Closing metadata suffix yielded by the streaming path.  The `format!`
in the source passes `self.target_size` for both the `target_size` and the
`actual_size` fields and sets `"streaming":true`. -/
def streamingSuffix (target_size chunk_count : Nat) : String :=
  "],\"metadata\":\x7b\"generated_by\":\"streaming\",\"target_size\":" ++
    natToString target_size ++ ",\"actual_size\":" ++ natToString target_size ++
    ",\"chunk_count\":" ++ natToString chunk_count ++ ",\"streaming\":true\x7d\x7d"

/-- Result of draining `StreamingGarbleResponse::into_stream`: the yielded
string sequence, the ghost element list, the structured metadata of the
closing suffix, and the final shared state. -/
structure StreamOut where
  items : List String
  elems : List String
  meta : Metadata
  pool : Pool
  stats : ChunkPoolStats
  genIdx : Nat
deriving DecidableEq

/-- `StreamingGarbleResponse::new` followed by `into_stream`, drained to a
list: yield the envelope opener, run the emission loop, then yield the
closing metadata suffix. -/
def into_stream (g : Gen) (pool : Pool) (stats : ChunkPoolStats) (genIdx : Nat)
    (target_size : Nat) : StreamOut :=
  let chunk_size := streaming_chunk_size target_size
  let total_chunks := divCeil target_size chunk_size
  let lo := streamLoop g chunk_size total_chunks [] [] target_size 0 pool stats genIdx
  ⟨gcOpen :: (lo.items ++ [streamingSuffix target_size lo.chunk_count]),
    lo.elems, ⟨"streaming", target_size, target_size, lo.chunk_count, true⟩,
    lo.pool, lo.stats, lo.genIdx⟩

/-- Total estimated fragment memory (`ChunkPool::estimate_memory_usage`):
sum of fragment byte lengths over every class. -/
def estimate_memory_usage (pool : Pool) : Nat :=
  (ChunkSize.allSizes.map fun cs => ((pool.classChunks cs).map String.length).sum).sum

/-- Memory budget check (`ChunkPool::has_memory_available`): estimated usage
strictly below `max_memory_mb` megabytes. -/
def has_memory_available (cfg : ChunkPoolConfig) (pool : Pool) : Bool :=
  estimate_memory_usage pool < cfg.max_memory_mb * 1024 * 1024

/-- Tick gate (`ChunkPool::should_generate_chunks`): memory budget first;
only if it allows, check whether any class is below its minimum. -/
def should_generate_chunks (cfg : ChunkPoolConfig) (pool : Pool) : Bool :=
  if !has_memory_available cfg pool then false
  else ChunkSize.allSizes.any fun size =>
    (pool.classChunks size).length < cfg.min_chunks_per_size

/-- Deficiency scan of `ChunkPool::generate_background_chunks`: every class
below its minimum, paired with `min(min_chunks_per_size - current, 3)`, in
class declaration order. -/
def chunks_to_generate (cfg : ChunkPoolConfig) (pool : Pool) : List (ChunkSize × Nat) :=
  ChunkSize.allSizes.filterMap fun size =>
    let current_count := (pool.classChunks size).length
    if current_count < cfg.min_chunks_per_size then
      some (size, min (cfg.min_chunks_per_size - current_count) 3)
    else none

/-- `ChunkPool::generate_chunks_parallel`: `count` freshly generated array
elements of the class's nominal size (each from its own generator), threaded
through the oracle's call counter. -/
def generate_chunks_parallel (g : Gen) (size : ChunkSize) :
    Nat → Nat → List String × Nat
  | 0, genIdx => ([], genIdx)
  | count + 1, genIdx =>
    let r := generate_chunks_parallel g size count (genIdx + 1)
    (g.arrElem genIdx size.target_bytes :: r.1, r.2)

/-- `ChunkPool::update_stats`: refresh the `total_chunks` and
`memory_usage_bytes` gauges from the pool. -/
def update_stats (pool : Pool) (stats : ChunkPoolStats) : ChunkPoolStats :=
  ⟨(ChunkSize.allSizes.map fun cs => (pool.classChunks cs).length).sum,
    estimate_memory_usage pool,
    stats.cache_hits, stats.cache_misses, stats.background_generations⟩

/-- `ChunkPool::generate_background_chunks`: compute the deficient classes,
process only the first one (`.take(1)`), extending its `Vec` with the fresh
fragments, then refresh the gauges and bump `background_generations`. -/
def generate_background_chunks (g : Gen) (cfg : ChunkPoolConfig) (pool : Pool)
    (stats : ChunkPoolStats) (genIdx : Nat) : Pool × ChunkPoolStats × Nat :=
  match chunks_to_generate cfg pool with
  | [] => (pool, stats, genIdx)
  | (size, count) :: _ =>
    let gc := generate_chunks_parallel g size count genIdx
    let pool1 := pool.setClass size (pool.classChunks size ++ gc.1)
    let stats1 := update_stats pool1 stats
    (pool1,
      ⟨stats1.total_chunks, stats1.memory_usage_bytes, stats1.cache_hits,
        stats1.cache_misses, stats1.background_generations + 1⟩,
      gc.2)

/-- One iteration of the `background_maintenance` loop body (the part after
the sleep): generate only when `should_generate_chunks` allows.  The
startup/steady-state interval switching does not affect what a tick does to
the pool and is not modelled. -/
def maintenance_tick (g : Gen) (cfg : ChunkPoolConfig) (pool : Pool)
    (stats : ChunkPoolStats) (genIdx : Nat) : Pool × ChunkPoolStats × Nat :=
  if should_generate_chunks cfg pool then
    generate_background_chunks g cfg pool stats genIdx
  else (pool, stats, genIdx)

/-- Response strategies (`ResponseStrategy`). -/
inductive ResponseStrategy where
  | Direct
  | Fast
  | Streaming
deriving DecidableEq

/-- `ResponseStrategy::for_size`. -/
def ResponseStrategy.for_size (size : Nat) : ResponseStrategy :=
  if size < 10000 then ResponseStrategy.Direct
  else if size < 1000000 then ResponseStrategy.Fast
  else ResponseStrategy.Streaming

/-- Result of `create_optimal_response`: the chosen strategy, the structured
document produced on that path (for the streaming path, the document formed
by the drained stream), the full output text, and the final shared state. -/
structure RespOut where
  strategy : ResponseStrategy
  doc : Doc
  output : String
  pool : Pool
  stats : ChunkPoolStats
  genIdx : Nat

/-- `create_optimal_response`: dispatch on `ResponseStrategy::for_size`. -/
def create_optimal_response (g : Gen) (pool : Pool) (stats : ChunkPoolStats)
    (genIdx : Nat) (target_size : Nat) : RespOut :=
  match ResponseStrategy.for_size target_size with
  | ResponseStrategy.Direct =>
      let json := g.payload target_size
      ⟨ResponseStrategy.Direct, Doc.direct json, json, pool, stats, genIdx⟩
  | ResponseStrategy.Fast =>
      let b := fast_build g pool stats genIdx target_size
      ⟨ResponseStrategy.Fast, b.doc, b.output, b.pool, b.stats, b.genIdx⟩
  | ResponseStrategy.Streaming =>
      let s := into_stream g pool stats genIdx target_size
      ⟨ResponseStrategy.Streaming, Doc.envelope s.elems s.meta, String.join s.items,
        s.pool, s.stats, s.genIdx⟩

/-- Zeroed statistics, used as a concrete starting state. -/
def stats0 : ChunkPoolStats := ⟨0, 0, 0, 0, 0⟩

/-- Concrete oracle whose generated elements record the size they were asked
for, making generation sizes observable in concrete runs. -/
def genEcho : Gen := ⟨fun _ s => natToString s, fun t => natToString t⟩

/-- Concrete oracle producing one-character fragments. -/
def genTiny : Gen := ⟨fun _ _ => "x", fun _ => "p"⟩

/-- A concrete 600-character fragment. -/
def strA600 : String := String.mk (List.replicate 600 'a')

/-- Concrete pool holding one 600-byte Small fragment. -/
def poolSmall600 : Pool := ⟨[strA600], [], [], []⟩

/-- Concrete pool holding one short Large fragment. -/
def poolLargeAbc : Pool := ⟨[], [], ["abc"], []⟩

/-- Concrete pool holding one Large and one XLarge fragment with
distinguishable contents. -/
def poolLX : Pool := ⟨[], [], ["L"], ["X"]⟩

/-- The empty pool. -/
def poolEmpty : Pool := ⟨[], [], [], []⟩

/-- Concrete pool with two Small fragments. -/
def poolTwoSmall : Pool := ⟨["s1", "s2"], [], [], []⟩

/-- Concrete configuration with a zero memory budget. -/
def cfg0 : ChunkPoolConfig := ⟨0, 5, 50, 1000, 5000⟩

/-- Reading a class after writing a (possibly different) class. -/
theorem classChunks_setClass (p : Pool) (cs cs' : ChunkSize) (v : List String) :
    (p.setClass cs v).classChunks cs' = if cs' = cs then v else p.classChunks cs' := by
  cases cs <;> cases cs' <;> simp [Pool.setClass, Pool.classChunks]

/-- `get_chunk` never adds fragments: every class of the returned pool is a
subset of the same class of the input pool. -/
theorem get_chunk_subset (pool : Pool) (stats : ChunkPoolStats) (size cs : ChunkSize) :
    ((get_chunk pool stats size).2.1.classChunks cs) ⊆ pool.classChunks cs := by
  unfold get_chunk
  cases h : (pool.classChunks size).getLast? with
  | none => simp
  | some c =>
    simp only [classChunks_setClass]
    by_cases hcs : cs = size
    · subst hcs
      simp [List.dropLast_subset]
    · simp [hcs]

/-- A fragment returned by `get_chunk` came from the requested class. -/
theorem get_chunk_some_mem (pool : Pool) (stats : ChunkPoolStats) (size : ChunkSize)
    (c : String) (h : (get_chunk pool stats size).1 = some c) :
    c ∈ pool.classChunks size := by
  unfold get_chunk at h
  cases hg : (pool.classChunks size).getLast? with
  | none => simp [hg] at h
  | some c' =>
    simp [hg] at h
    subst h
    exact List.mem_of_getLast?_eq_some hg

/-- Digit-count bound for the fueled digit renderer: any `n < 10 ^ k` has at
most `k` digits (for positive `k`), with any amount of fuel. -/
theorem natDigitsAux_length_le (fuel : Nat) : ∀ k n, 0 < k → n < 10 ^ k →
    (natDigitsAux fuel n).length ≤ k := by
  induction fuel with
  | zero => intro k n hk _; simp [natDigitsAux]
  | succ m ih =>
    intro k n hk hn
    unfold natDigitsAux
    by_cases h10 : n < 10
    · simpa [h10] using hk
    · simp only [h10, if_false, List.length_append, List.length_cons, List.length_nil]
      have hk2 : 2 ≤ k := by
        by_contra hlt
        have : k = 1 := by omega
        subst this
        simp [pow_one] at hn
        omega
      have hdiv : n / 10 < 10 ^ (k - 1) := by
        have h1 : 10 ^ k = 10 ^ (k - 1) * 10 := by
          have h2 : k - 1 + 1 = k := by omega
          calc 10 ^ k = 10 ^ (k - 1 + 1) := by rw [h2]
            _ = 10 ^ (k - 1) * 10 := by rw [pow_succ]
        exact (Nat.div_lt_iff_lt_mul (by norm_num)).mpr (by omega)
      have := ih (k - 1) (n / 10) (by omega) hdiv
      omega

/-- Digit-count bound for the decimal renderer. -/
theorem natToString_length_le (n k : Nat) (hk : 0 < k) (hn : n < 10 ^ k) :
    (natToString n).length ≤ k := by
  unfold natToString
  rw [String.length_mk]
  exact natDigitsAux_length_le (n + 1) k n hk hn

/-- When the remaining-budget guard fails, the assembly loop is the
identity, whatever the fuel. -/
theorem buildLoop_guard_false (g : Gen) (target fuel : Nat) (result : String)
    (elems : List String) (remaining cc : Nat) (first : Bool) (pool : Pool)
    (stats : ChunkPoolStats) (gi : Nat) (h : ¬ 500 < remaining) :
    buildLoop g target fuel result elems remaining cc first pool stats gi =
      ⟨result, elems, remaining, cc, pool, stats, gi⟩ := by
  cases fuel with
  | zero => rfl
  | succ n => simp [buildLoop, h]

/-- The assembly loop extends the element list by some `new` suffix, bumps
`chunk_count` by exactly `new.length`, and runs at most `fuel` iterations. -/
theorem buildLoop_elems (g : Gen) (target : Nat) : ∀ (fuel : Nat) (result : String)
    (elems : List String) (remaining cc : Nat) (first : Bool) (pool : Pool)
    (stats : ChunkPoolStats) (gi : Nat),
    ∃ new : List String,
      (buildLoop g target fuel result elems remaining cc first pool stats gi).elems
        = elems ++ new ∧
      (buildLoop g target fuel result elems remaining cc first pool stats gi).chunk_count
        = cc + new.length ∧ new.length ≤ fuel := by
  intro fuel
  induction fuel with
  | zero =>
    intro result elems remaining cc first pool stats gi
    exact ⟨[], by simp [buildLoop], by simp [buildLoop], by simp⟩
  | succ n ih =>
    intro result elems remaining cc first pool stats gi
    by_cases h : 500 < remaining
    · rcases hgc : get_chunk pool stats (chooseChunkSize remaining) with ⟨copt, pool1, stats1⟩
      cases copt with
      | some c =>
        by_cases hbrk : target * 2 < (if first then result else result.push ',').length + c.length
        · exact ⟨[c], by simp [buildLoop, h, hgc, hbrk], by simp [buildLoop, h, hgc, hbrk], by simp⟩
        · obtain ⟨new, h1, h2, h3⟩ := ih ((if first then result else result.push ',') ++ c)
            (elems ++ [c]) (remaining - c.length) (cc + 1) false pool1 stats1 gi
          refine ⟨c :: new, ?_, ?_, ?_⟩
          · simp [buildLoop, h, hgc, hbrk, h1]
          · simp [buildLoop, h, hgc, hbrk, h2]
            omega
          · simpa using h3
      | none =>
        by_cases hbrk : target * 2 <
            (if first then result else result.push ',').length +
              (g.arrElem gi (min remaining ChunkSize.Small.target_bytes)).length
        · refine ⟨[g.arrElem gi (min remaining ChunkSize.Small.target_bytes)], ?_, ?_, ?_⟩
          · simp [buildLoop, h, hgc, hbrk]
          · simp [buildLoop, h, hgc, hbrk]
          · simp
        · obtain ⟨new, h1, h2, h3⟩ := ih ((if first then result else result.push ',') ++
              g.arrElem gi (min remaining ChunkSize.Small.target_bytes))
            (elems ++ [g.arrElem gi (min remaining ChunkSize.Small.target_bytes)])
            (remaining - (g.arrElem gi (min remaining ChunkSize.Small.target_bytes)).length)
            (cc + 1) false pool1 stats1 (gi + 1)
          refine ⟨g.arrElem gi (min remaining ChunkSize.Small.target_bytes) :: new, ?_, ?_, ?_⟩
          · simp [buildLoop, h, hgc, hbrk, h1]
          · simp [buildLoop, h, hgc, hbrk, h2]
            omega
          · simpa using h3
    · exact ⟨[], by simp [buildLoop_guard_false _ _ _ _ _ _ _ _ _ _ _ h],
        by simp [buildLoop_guard_false _ _ _ _ _ _ _ _ _ _ _ h], by simp⟩

/-- On exit, the assembly loop has either drained the remaining budget to at
most 500 bytes, used all its fuel (i.e. reached the 1000-fragment cap), or
tripped the double-target safety break. -/
theorem buildLoop_exit (g : Gen) (target : Nat) : ∀ (fuel : Nat) (result : String)
    (elems : List String) (remaining cc : Nat) (first : Bool) (pool : Pool)
    (stats : ChunkPoolStats) (gi : Nat),
    (buildLoop g target fuel result elems remaining cc first pool stats gi).remaining ≤ 500 ∨
    (buildLoop g target fuel result elems remaining cc first pool stats gi).chunk_count
      = cc + fuel ∨
    target * 2 <
      (buildLoop g target fuel result elems remaining cc first pool stats gi).result.length := by
  intro fuel
  induction fuel with
  | zero =>
    intro result elems remaining cc first pool stats gi
    right; left; simp [buildLoop]
  | succ n ih =>
    intro result elems remaining cc first pool stats gi
    by_cases h : 500 < remaining
    · rcases hgc : get_chunk pool stats (chooseChunkSize remaining) with ⟨copt, pool1, stats1⟩
      cases copt with
      | some c =>
        by_cases hbrk : target * 2 < (if first then result else result.push ',').length + c.length
        · right; right; simp [buildLoop, h, hgc, hbrk]
        · have hred : buildLoop g target (n + 1) result elems remaining cc first pool stats gi =
              buildLoop g target n ((if first then result else result.push ',') ++ c)
                (elems ++ [c]) (remaining - c.length) (cc + 1) false pool1 stats1 gi := by
            simp [buildLoop, h, hgc, hbrk]
          rw [hred]
          rcases ih ((if first then result else result.push ',') ++ c)
            (elems ++ [c]) (remaining - c.length) (cc + 1) false pool1 stats1 gi with h1 | h1 | h1
          · left; exact h1
          · right; left; rw [h1]; omega
          · right; right; exact h1
      | none =>
        by_cases hbrk : target * 2 <
            (if first then result else result.push ',').length +
              (g.arrElem gi (min remaining ChunkSize.Small.target_bytes)).length
        · right; right; simp [buildLoop, h, hgc, hbrk]
        · have hred : buildLoop g target (n + 1) result elems remaining cc first pool stats gi =
              buildLoop g target n ((if first then result else result.push ',') ++
                  g.arrElem gi (min remaining ChunkSize.Small.target_bytes))
                (elems ++ [g.arrElem gi (min remaining ChunkSize.Small.target_bytes)])
                (remaining - (g.arrElem gi (min remaining ChunkSize.Small.target_bytes)).length)
                (cc + 1) false pool1 stats1 (gi + 1) := by
            simp [buildLoop, h, hgc, hbrk]
          rw [hred]
          rcases ih ((if first then result else result.push ',') ++
              g.arrElem gi (min remaining ChunkSize.Small.target_bytes))
            (elems ++ [g.arrElem gi (min remaining ChunkSize.Small.target_bytes)])
            (remaining - (g.arrElem gi (min remaining ChunkSize.Small.target_bytes)).length)
            (cc + 1) false pool1 stats1 (gi + 1) with h1 | h1 | h1
          · left; exact h1
          · right; left; rw [h1]; omega
          · right; right; exact h1
    · left
      simp [buildLoop_guard_false _ _ _ _ _ _ _ _ _ _ _ h]
      omega

/-- Growth bound for the assembly loop, scoped to the fragments the loop can
actually touch: when the remaining budget stays below the Large nominal size
the largest-fits rule only ever pops the Small and Medium classes, and the
miss fallback only ever asks the generator for at most the Small nominal
size.  If those fragments are at most `B` bytes, the accumulated string
grows by at most the spendable budget `remaining - 500`, one final
overshooting fragment of at most `B` bytes, and one separator byte per
iteration. -/
theorem buildLoop_length_le (g : Gen) (target B : Nat)
    (hg : ∀ i s, s ≤ ChunkSize.Small.target_bytes → (g.arrElem i s).length ≤ B) :
    ∀ (fuel : Nat) (result : String) (elems : List String) (remaining cc : Nat)
      (first : Bool) (pool : Pool) (stats : ChunkPoolStats) (gi : Nat),
      remaining < ChunkSize.Large.target_bytes →
      (∀ c, c ∈ pool.classChunks ChunkSize.Small → c.length ≤ B) →
      (∀ c, c ∈ pool.classChunks ChunkSize.Medium → c.length ≤ B) →
      (buildLoop g target fuel result elems remaining cc first pool stats gi).result.length
        ≤ result.length + (remaining - 500) + B + fuel := by
  intro fuel
  induction fuel with
  | zero =>
    intro result elems remaining cc first pool stats gi _ _ _
    simp only [buildLoop]
    omega
  | succ n ih =>
    intro result elems remaining cc first pool stats gi hrem hpS hpM
    by_cases h : 500 < remaining
    · rcases hgc : get_chunk pool stats (chooseChunkSize remaining) with ⟨copt, pool1, stats1⟩
      have hp1 : pool1 = (get_chunk pool stats (chooseChunkSize remaining)).2.1 := by
        rw [hgc]
      have hsubS : ∀ c, c ∈ pool1.classChunks ChunkSize.Small → c.length ≤ B := by
        intro c hc
        exact hpS c (get_chunk_subset pool stats (chooseChunkSize remaining)
          ChunkSize.Small (hp1 ▸ hc))
      have hsubM : ∀ c, c ∈ pool1.classChunks ChunkSize.Medium → c.length ≤ B := by
        intro c hc
        exact hpM c (get_chunk_subset pool stats (chooseChunkSize remaining)
          ChunkSize.Medium (hp1 ▸ hc))
      have hclass : chooseChunkSize remaining = ChunkSize.Small ∨
          chooseChunkSize remaining = ChunkSize.Medium := by
        unfold chooseChunkSize
        rw [if_neg (by simp only [ChunkSize.target_bytes] at hrem ⊢; omega),
          if_neg (by simp only [ChunkSize.target_bytes] at hrem ⊢; omega)]
        by_cases hm : ChunkSize.Medium.target_bytes ≤ remaining
        · right; rw [if_pos hm]
        · left; rw [if_neg hm]
      have hsep : (if first then result else result.push ',').length ≤ result.length + 1 := by
        cases first <;> simp
      cases copt with
      | some c =>
        have hcmem : c ∈ pool.classChunks (chooseChunkSize remaining) := by
          refine get_chunk_some_mem pool stats _ c ?_
          rw [hgc]
        have hclen : c.length ≤ B := by
          rcases hclass with hcl | hcl
          · exact hpS c (hcl ▸ hcmem)
          · exact hpM c (hcl ▸ hcmem)
        by_cases hbrk : target * 2 < (if first then result else result.push ',').length + c.length
        · have hred : buildLoop g target (n + 1) result elems remaining cc first pool stats gi =
              ⟨(if first then result else result.push ',') ++ c, elems ++ [c],
                remaining - c.length, cc + 1, pool1, stats1, gi⟩ := by
            simp [buildLoop, h, hgc, hbrk]
          rw [hred]
          simp only [String.length_append]
          omega
        · by_cases hnext : 500 < remaining - c.length
          · have hred : buildLoop g target (n + 1) result elems remaining cc first pool stats gi =
                buildLoop g target n ((if first then result else result.push ',') ++ c)
                  (elems ++ [c]) (remaining - c.length) (cc + 1) false pool1 stats1 gi := by
              simp [buildLoop, h, hgc, hbrk]
            rw [hred]
            have hih := ih ((if first then result else result.push ',') ++ c)
              (elems ++ [c]) (remaining - c.length) (cc + 1) false pool1 stats1 gi
              (Nat.lt_of_le_of_lt (Nat.sub_le _ _) hrem) hsubS hsubM
            simp only [String.length_append] at hih
            omega
          · have hred : buildLoop g target (n + 1) result elems remaining cc first pool stats gi =
                buildLoop g target n ((if first then result else result.push ',') ++ c)
                  (elems ++ [c]) (remaining - c.length) (cc + 1) false pool1 stats1 gi := by
              simp [buildLoop, h, hgc, hbrk]
            rw [hred, buildLoop_guard_false _ _ _ _ _ _ _ _ _ _ _ hnext]
            simp only [String.length_append]
            omega
      | none =>
        have hclen : (g.arrElem gi (min remaining ChunkSize.Small.target_bytes)).length ≤ B :=
          hg gi (min remaining ChunkSize.Small.target_bytes) (min_le_right _ _)
        by_cases hbrk : target * 2 <
            (if first then result else result.push ',').length +
              (g.arrElem gi (min remaining ChunkSize.Small.target_bytes)).length
        · have hred : buildLoop g target (n + 1) result elems remaining cc first pool stats gi =
              ⟨(if first then result else result.push ',') ++
                  g.arrElem gi (min remaining ChunkSize.Small.target_bytes),
                elems ++ [g.arrElem gi (min remaining ChunkSize.Small.target_bytes)],
                remaining - (g.arrElem gi (min remaining ChunkSize.Small.target_bytes)).length,
                cc + 1, pool1, stats1, gi + 1⟩ := by
            simp [buildLoop, h, hgc, hbrk]
          rw [hred]
          simp only [String.length_append]
          omega
        · by_cases hnext : 500 <
              remaining - (g.arrElem gi (min remaining ChunkSize.Small.target_bytes)).length
          · have hred : buildLoop g target (n + 1) result elems remaining cc first pool stats gi =
                buildLoop g target n ((if first then result else result.push ',') ++
                    g.arrElem gi (min remaining ChunkSize.Small.target_bytes))
                  (elems ++ [g.arrElem gi (min remaining ChunkSize.Small.target_bytes)])
                  (remaining - (g.arrElem gi (min remaining ChunkSize.Small.target_bytes)).length)
                  (cc + 1) false pool1 stats1 (gi + 1) := by
              simp [buildLoop, h, hgc, hbrk]
            rw [hred]
            have hih := ih ((if first then result else result.push ',') ++
                g.arrElem gi (min remaining ChunkSize.Small.target_bytes))
              (elems ++ [g.arrElem gi (min remaining ChunkSize.Small.target_bytes)])
              (remaining - (g.arrElem gi (min remaining ChunkSize.Small.target_bytes)).length)
              (cc + 1) false pool1 stats1 (gi + 1)
              (Nat.lt_of_le_of_lt (Nat.sub_le _ _) hrem) hsubS hsubM
            simp only [String.length_append] at hih
            omega
          · have hred : buildLoop g target (n + 1) result elems remaining cc first pool stats gi =
                buildLoop g target n ((if first then result else result.push ',') ++
                    g.arrElem gi (min remaining ChunkSize.Small.target_bytes))
                  (elems ++ [g.arrElem gi (min remaining ChunkSize.Small.target_bytes)])
                  (remaining - (g.arrElem gi (min remaining ChunkSize.Small.target_bytes)).length)
                  (cc + 1) false pool1 stats1 (gi + 1) := by
              simp [buildLoop, h, hgc, hbrk]
            rw [hred, buildLoop_guard_false _ _ _ _ _ _ _ _ _ _ _ hnext]
            simp only [String.length_append]
            omega
    · rw [buildLoop_guard_false _ _ _ _ _ _ _ _ _ _ _ h]
      simp only []
      omega

/-- When the remaining-budget guard fails, the streaming loop is the
identity, whatever the fuel. -/
theorem streamLoop_guard_false (g : Gen) (chunk_size fuel : Nat) (items elems : List String)
    (remaining cc : Nat) (pool : Pool) (stats : ChunkPoolStats) (gi : Nat)
    (h : ¬ 500 < remaining) :
    streamLoop g chunk_size fuel items elems remaining cc pool stats gi =
      ⟨items, elems, remaining, cc, pool, stats, gi⟩ := by
  cases fuel with
  | zero => rfl
  | succ n => simp [streamLoop, h]

/-- The streaming loop extends the element list by some `new` suffix and
bumps `chunk_count` by exactly `new.length`. -/
theorem streamLoop_elems (g : Gen) (chunk_size : Nat) : ∀ (fuel : Nat)
    (items elems : List String) (remaining cc : Nat) (pool : Pool)
    (stats : ChunkPoolStats) (gi : Nat),
    ∃ new : List String,
      (streamLoop g chunk_size fuel items elems remaining cc pool stats gi).elems
        = elems ++ new ∧
      (streamLoop g chunk_size fuel items elems remaining cc pool stats gi).chunk_count
        = cc + new.length := by
  intro fuel
  induction fuel with
  | zero =>
    intro items elems remaining cc pool stats gi
    exact ⟨[], by simp [streamLoop], by simp [streamLoop]⟩
  | succ n ih =>
    intro items elems remaining cc pool stats gi
    by_cases h : 500 < remaining
    · rcases hgc : get_chunk pool stats (chooseChunkSize (min remaining chunk_size))
        with ⟨copt, pool1, stats1⟩
      cases copt with
      | some c =>
        have hred : streamLoop g chunk_size (n + 1) items elems remaining cc pool stats gi =
            streamLoop g chunk_size n
              ((if 0 < cc then items ++ [","] else items) ++ [c]) (elems ++ [c])
              (remaining - c.length) (cc + 1) pool1 stats1 gi := by
          simp [streamLoop, h, hgc]
        obtain ⟨new, h1, h2⟩ := ih ((if 0 < cc then items ++ [","] else items) ++ [c])
          (elems ++ [c]) (remaining - c.length) (cc + 1) pool1 stats1 gi
        refine ⟨c :: new, ?_, ?_⟩
        · rw [hred, h1]; simp
        · rw [hred, h2]; simp; omega
      | none =>
        have hred : streamLoop g chunk_size (n + 1) items elems remaining cc pool stats gi =
            streamLoop g chunk_size n
              ((if 0 < cc then items ++ [","] else items) ++
                [g.arrElem gi (min remaining chunk_size)])
              (elems ++ [g.arrElem gi (min remaining chunk_size)])
              (remaining - (g.arrElem gi (min remaining chunk_size)).length) (cc + 1)
              pool1 stats1 (gi + 1) := by
          simp [streamLoop, h, hgc]
        obtain ⟨new, h1, h2⟩ := ih ((if 0 < cc then items ++ [","] else items) ++
            [g.arrElem gi (min remaining chunk_size)])
          (elems ++ [g.arrElem gi (min remaining chunk_size)])
          (remaining - (g.arrElem gi (min remaining chunk_size)).length) (cc + 1)
          pool1 stats1 (gi + 1)
        refine ⟨g.arrElem gi (min remaining chunk_size) :: new, ?_, ?_⟩
        · rw [hred, h1]; simp
        · rw [hred, h2]; simp; omega
    · exact ⟨[], by simp [streamLoop_guard_false _ _ _ _ _ _ _ _ _ _ h],
        by simp [streamLoop_guard_false _ _ _ _ _ _ _ _ _ _ h]⟩

/-- The chunk count printed by `build_response` always equals the number of
array elements it emitted. -/
theorem build_response_countOk (g : Gen) (pool : Pool) (stats : ChunkPoolStats)
    (gi target : Nat) : Doc.countOk (build_response g pool stats gi target).doc := by
  unfold build_response
  by_cases h : target < ChunkSize.Small.target_bytes
  · rw [if_pos h]
    trivial
  · rw [if_neg h]
    obtain ⟨new, h1, h2, _⟩ := buildLoop_elems g target 1000 gcOpen [] target 0 true pool stats gi
    simp only [Doc.countOk]
    rw [h1, h2]
    simp

/-- `build_response` never prints a `"streaming"` member. -/
theorem build_response_streaming_false (g : Gen) (pool : Pool) (stats : ChunkPoolStats)
    (gi target : Nat) : (build_response g pool stats gi target).doc.metaOf.streaming = false := by
  unfold build_response
  by_cases h : target < ChunkSize.Small.target_bytes
  · rw [if_pos h]; rfl
  · rw [if_neg h]; rfl

/-- `FastGarbleResponse::build` never prints a `"streaming"` member. -/
theorem fast_build_streaming_false (g : Gen) (pool : Pool) (stats : ChunkPoolStats)
    (gi target : Nat) : (fast_build g pool stats gi target).doc.metaOf.streaming = false := by
  unfold fast_build
  by_cases h : target < 100000
  · rw [if_pos h]; exact build_response_streaming_false g pool stats gi target
  · rw [if_neg h]; rfl

/-- `generate_chunks_parallel` produces exactly the requested count. -/
theorem generate_chunks_parallel_length (g : Gen) (size : ChunkSize) :
    ∀ count gi, (generate_chunks_parallel g size count gi).1.length = count := by
  intro count
  induction count with
  | zero => intro gi; rfl
  | succ n ih =>
    intro gi
    simp [generate_chunks_parallel, ih]

/-- Every class in the deficiency scan really is under its minimum, and is
slated for at most 3 fresh fragments. -/
theorem chunks_to_generate_mem (cfg : ChunkPoolConfig) (pool : Pool) (size : ChunkSize)
    (count : Nat) (h : (size, count) ∈ chunks_to_generate cfg pool) :
    (pool.classChunks size).length < cfg.min_chunks_per_size ∧ count ≤ 3 := by
  unfold chunks_to_generate at h
  rw [List.mem_filterMap] at h
  obtain ⟨sz, _, hsz⟩ := h
  by_cases hc : (pool.classChunks sz).length < cfg.min_chunks_per_size
  · simp only [hc, if_true, Option.some.injEq, Prod.mk.injEq] at hsz
    obtain ⟨h1, h2⟩ := hsz
    subst h1
    exact ⟨hc, by omega⟩
  · simp [hc] at hsz

/-- Claim C1: strategy selection is the stated total three-way partition,
and the produced document shape follows it: `Direct` (below 10,000 bytes)
yields a single freeform payload with no envelope (and hence no
`garbled_chunks` key added by the assembler), while `Fast` (10,000 up to but
not including 1,000,000) and `Streaming` (1,000,000 and above) yield the
envelope with exactly one `garbled_chunks` element list and one metadata
block. -/
theorem claim_C1_strategy_partition (g : Gen) (pool : Pool) (stats : ChunkPoolStats)
    (gi size : Nat) :
    (size < 10000 → ResponseStrategy.for_size size = ResponseStrategy.Direct ∧
      (create_optimal_response g pool stats gi size).doc = Doc.direct (g.payload size)) ∧
    (10000 ≤ size → size < 1000000 →
      ResponseStrategy.for_size size = ResponseStrategy.Fast ∧
      ∃ es m, (create_optimal_response g pool stats gi size).doc = Doc.envelope es m) ∧
    (1000000 ≤ size → ResponseStrategy.for_size size = ResponseStrategy.Streaming ∧
      ∃ es m, (create_optimal_response g pool stats gi size).doc = Doc.envelope es m) := by
  refine ⟨?_, ?_, ?_⟩
  · intro h
    have hfs : ResponseStrategy.for_size size = ResponseStrategy.Direct := by
      unfold ResponseStrategy.for_size
      rw [if_pos h]
    refine ⟨hfs, ?_⟩
    unfold create_optimal_response
    rw [hfs]
  · intro h1 h2
    have hfs : ResponseStrategy.for_size size = ResponseStrategy.Fast := by
      unfold ResponseStrategy.for_size
      rw [if_neg (by omega), if_pos h2]
    refine ⟨hfs, ?_⟩
    unfold create_optimal_response
    rw [hfs]
    unfold fast_build
    by_cases h3 : size < 100000
    · rw [if_pos h3]
      unfold build_response
      rw [if_neg (show ¬ size < ChunkSize.Small.target_bytes by
        simp only [ChunkSize.target_bytes]; omega)]
      exact ⟨_, _, rfl⟩
    · rw [if_neg h3]
      exact ⟨_, _, rfl⟩
  · intro h1
    have hfs : ResponseStrategy.for_size size = ResponseStrategy.Streaming := by
      unfold ResponseStrategy.for_size
      rw [if_neg (by omega), if_neg (by omega)]
    refine ⟨hfs, ?_⟩
    unfold create_optimal_response
    rw [hfs]
    exact ⟨_, _, rfl⟩

/-- Witness for claim C1 at sizes 5,000 / 50,000 / 2,000,000. -/
theorem claim_C1_strategy_partition_witness :
    (ResponseStrategy.for_size 5000 = ResponseStrategy.Direct ∧
      (create_optimal_response genEcho poolEmpty stats0 0 5000).doc
        = Doc.direct (genEcho.payload 5000)) ∧
    (ResponseStrategy.for_size 50000 = ResponseStrategy.Fast ∧
      ∃ es m, (create_optimal_response genEcho poolEmpty stats0 0 50000).doc
        = Doc.envelope es m) ∧
    (ResponseStrategy.for_size 2000000 = ResponseStrategy.Streaming ∧
      ∃ es m, (create_optimal_response genEcho poolEmpty stats0 0 2000000).doc
        = Doc.envelope es m) :=
  ⟨(claim_C1_strategy_partition genEcho poolEmpty stats0 0 5000).1 (by decide),
   (claim_C1_strategy_partition genEcho poolEmpty stats0 0 50000).2.1 (by decide) (by decide),
   (claim_C1_strategy_partition genEcho poolEmpty stats0 0 2000000).2.2 (by decide)⟩

/-- Claim C9: `get_chunk` pops exactly one fragment and records a hit when
the class's collection is non-empty, returns `none` and records a miss when
it is empty, and in neither case inserts or generates anything (every class
of the resulting pool is a subset of what it was; the signature has no
generator at all). -/
theorem claim_C9_get_chunk (pool : Pool) (stats : ChunkPoolStats) (size : ChunkSize) :
    (pool.classChunks size = [] →
      get_chunk pool stats size = (none, pool,
        ⟨stats.total_chunks, stats.memory_usage_bytes, stats.cache_hits,
          stats.cache_misses + 1, stats.background_generations⟩)) ∧
    (∀ v c, pool.classChunks size = v ++ [c] →
      get_chunk pool stats size = (some c, pool.setClass size v,
        ⟨stats.total_chunks - 1, stats.memory_usage_bytes, stats.cache_hits + 1,
          stats.cache_misses, stats.background_generations⟩) ∧
      ((pool.setClass size v).classChunks size).length + 1
        = (pool.classChunks size).length) ∧
    (∀ cs, ((get_chunk pool stats size).2.1.classChunks cs) ⊆ pool.classChunks cs) := by
  refine ⟨?_, ?_, get_chunk_subset pool stats size⟩
  · intro h
    unfold get_chunk
    rw [h]
    rfl
  · intro v c h
    constructor
    · unfold get_chunk
      rw [h, List.getLast?_concat, List.dropLast_concat]
    · rw [classChunks_setClass, if_pos rfl, h]
      simp

/-- Witness for claim C9: a hit on a two-element Small class and a miss on
an empty Medium class of the same concrete pool. -/
theorem claim_C9_get_chunk_witness :
    (get_chunk poolTwoSmall stats0 ChunkSize.Medium = (none, poolTwoSmall,
      ⟨stats0.total_chunks, stats0.memory_usage_bytes, stats0.cache_hits,
        stats0.cache_misses + 1, stats0.background_generations⟩)) ∧
    (get_chunk poolTwoSmall stats0 ChunkSize.Small = (some "s2",
        poolTwoSmall.setClass ChunkSize.Small ["s1"],
        ⟨stats0.total_chunks - 1, stats0.memory_usage_bytes, stats0.cache_hits + 1,
          stats0.cache_misses, stats0.background_generations⟩) ∧
      ((poolTwoSmall.setClass ChunkSize.Small ["s1"]).classChunks ChunkSize.Small).length + 1
        = (poolTwoSmall.classChunks ChunkSize.Small).length) :=
  ⟨(claim_C9_get_chunk poolTwoSmall stats0 ChunkSize.Medium).1 (by decide),
   (claim_C9_get_chunk poolTwoSmall stats0 ChunkSize.Small).2.1 ["s1"] "s2" (by decide)⟩

/-- Claim C10: for targets strictly below the Small nominal size (1,024
bytes), `build_response` returns the serialization of a single freshly
generated payload — no envelope, no `garbled_chunks` array, no metadata —
and leaves the pool and the statistics completely untouched. -/
theorem claim_C10_small_direct (g : Gen) (pool : Pool) (stats : ChunkPoolStats)
    (gi target : Nat) (h : target < 1024) :
    build_response g pool stats gi target =
      ⟨Doc.direct (g.payload target), g.payload target, g.payload target, 0,
        pool, stats, gi⟩ := by
  unfold build_response
  rw [if_pos (show target < ChunkSize.Small.target_bytes by
    simp only [ChunkSize.target_bytes]; omega)]

/-- Witness for claim C10 at target 50. -/
theorem claim_C10_small_direct_witness :
    build_response genEcho poolTwoSmall stats0 0 50 =
      ⟨Doc.direct (genEcho.payload 50), genEcho.payload 50, genEcho.payload 50, 0,
        poolTwoSmall, stats0, 0⟩ :=
  claim_C10_small_direct genEcho poolTwoSmall stats0 0 50 (by decide)

/-- Claim C7: in all three assemblers — `build_response`, the Fast parallel
builder, and the streaming emitter — the printed `chunk_count` equals the
number of elements placed in the `garbled_chunks` array (stated as
`Doc.countOk`, which is trivial on the non-enveloped small-target branch of
`build_response`). -/
theorem claim_C7_chunk_count (g : Gen) (pool : Pool) (stats : ChunkPoolStats)
    (gi t1 t2 t3 : Nat) :
    Doc.countOk (build_response g pool stats gi t1).doc ∧
    Doc.countOk (fast_build g pool stats gi t2).doc ∧
    (into_stream g pool stats gi t3).meta.chunk_count
      = (into_stream g pool stats gi t3).elems.length := by
  refine ⟨build_response_countOk g pool stats gi t1, ?_, ?_⟩
  · unfold fast_build
    by_cases h : t2 < 100000
    · rw [if_pos h]
      exact build_response_countOk g pool stats gi t2
    · rw [if_neg h]
      unfold build_parallel
      simp only [Doc.countOk]
  · unfold into_stream
    obtain ⟨new, h1, h2⟩ := streamLoop_elems g (streaming_chunk_size t3)
      (divCeil t3 (streaming_chunk_size t3)) [] [] t3 0 pool stats gi
    simp only []
    rw [h1, h2]
    simp

/-- Claim C4: for every target size, the streaming path's closing metadata
block is exactly `generated_by = "streaming"`, `target_size` and
`actual_size` both equal to the requested target (an echo, not a
measurement), `chunk_count` equal to the number of emitted array elements,
and `streaming = true`; the emitted sequence ends with precisely the
rendered suffix carrying those values; neither `build_response` nor the
Fast builder ever prints a `streaming` member; and at the strategy level a
`streaming` member in the produced document forces the Streaming strategy.
-/
theorem claim_C4_streaming_metadata (g g2 g3 g4 : Gen) (pool pool2 pool3 pool4 : Pool)
    (stats stats2 stats3 stats4 : ChunkPoolStats) (gi gi2 gi3 gi4 target t2 t3 : Nat) :
    (into_stream g pool stats gi target).meta =
      ⟨"streaming", target, target, (into_stream g pool stats gi target).elems.length, true⟩ ∧
    (∃ mid, (into_stream g pool stats gi target).items
      = gcOpen :: mid ++
        [streamingSuffix target (into_stream g pool stats gi target).elems.length]) ∧
    (build_response g2 pool2 stats2 gi2 t2).doc.metaOf.streaming = false ∧
    (fast_build g3 pool3 stats3 gi3 t3).doc.metaOf.streaming = false ∧
    (∀ size, (create_optimal_response g4 pool4 stats4 gi4 size).doc.metaOf.streaming = true →
      ResponseStrategy.for_size size = ResponseStrategy.Streaming) := by
  obtain ⟨new, h1, h2⟩ := streamLoop_elems g (streaming_chunk_size target)
    (divCeil target (streaming_chunk_size target)) [] [] target 0 pool stats gi
  refine ⟨?_, ?_, build_response_streaming_false g2 pool2 stats2 gi2 t2,
    fast_build_streaming_false g3 pool3 stats3 gi3 t3, ?_⟩
  · unfold into_stream
    simp only [Metadata.mk.injEq]
    rw [h1, h2]
    simp
  · refine ⟨(streamLoop g (streaming_chunk_size target)
      (divCeil target (streaming_chunk_size target)) [] [] target 0 pool stats gi).items, ?_⟩
    unfold into_stream
    simp only []
    rw [h1, h2]
    simp
  · intro size hstr
    cases hfs : ResponseStrategy.for_size size with
    | Direct =>
      unfold create_optimal_response at hstr
      rw [hfs] at hstr
      simp [Doc.metaOf] at hstr
    | Fast =>
      unfold create_optimal_response at hstr
      rw [hfs] at hstr
      simp only [] at hstr
      rw [fast_build_streaming_false g4 pool4 stats4 gi4 size] at hstr
      exact absurd hstr (by simp)
    | Streaming => rfl

/-- Witness for claim C4: at size 2,000,000 the produced document does carry
`streaming:true`, and the strategy-level conjunct reports the Streaming
strategy there. -/
theorem claim_C4_streaming_metadata_witness :
    ResponseStrategy.for_size 2000000 = ResponseStrategy.Streaming :=
  (claim_C4_streaming_metadata genTiny genTiny genTiny genTiny
    poolEmpty poolEmpty poolEmpty poolEmpty stats0 stats0 stats0 stats0
    0 0 0 0 2000000 50 50).2.2.2.2 2000000 rfl

set_option maxRecDepth 40000 in
/-- Counterexample to claim C2: at target 1,024 with one pooled 600-byte
Small fragment, `build_response` prints `actual_size = 694`, but the
accumulated string before the metadata suffix is appended (prefix plus
elements plus separators) is only 619 bytes — the printed value includes the
first 75 bytes of the metadata suffix (56 fixed bytes, the 4 digits of
`target_size`, and the 15-byte `actual_size` label). -/
theorem claim_C2_counterexample :
    (build_response genEcho poolSmall600 stats0 0 1024).doc.metaOf.actual_size = 694 ∧
    (build_response genEcho poolSmall600 stats0 0 1024).body.length = 619 ∧
    (694 : Nat) ≠ 619 := by
  refine ⟨by decide, by decide, by decide⟩

/-- Claim C2 as amended: `build_response`'s printed `actual_size` equals the
length of the accumulated string before the suffix plus the 71 fixed suffix
bytes already pushed before the measurement plus the decimal digits of
`target_size`; it excludes only the `actual_size` digits themselves and the
suffix bytes after them. -/
theorem claim_C2_amended (g : Gen) (pool : Pool) (stats : ChunkPoolStats)
    (gi target : Nat) (h : ChunkSize.Small.target_bytes ≤ target) :
    (build_response g pool stats gi target).doc.metaOf.actual_size =
      (build_response g pool stats gi target).body.length + 71
        + (natToString target).length := by
  unfold build_response
  rw [if_neg (Nat.not_lt.mpr h)]
  simp only [Doc.metaOf, String.length_append]
  have hA : cpMetaA.length = 56 := by decide
  have hB : cpMetaB.length = 15 := by decide
  omega

/-- Witness for the amended claim C2 at target 1,024. -/
theorem claim_C2_amended_witness :
    (build_response genEcho poolSmall600 stats0 0 1024).doc.metaOf.actual_size =
      (build_response genEcho poolSmall600 stats0 0 1024).body.length + 71
        + (natToString 1024).length :=
  claim_C2_amended genEcho poolSmall600 stats0 0 1024 (by decide)

set_option maxRecDepth 40000 in
/-- Counterexample to claim C3: at target 100,000 with one pooled 3-byte
Large fragment, the Fast parallel path prints `actual_size = 113` while the
fully assembled output is 118 bytes long — the measurement is taken before
the `actual_size` digits themselves and the closing braces are pushed, so it
is not the true final length. -/
theorem claim_C3_counterexample :
    (fast_build genEcho poolLargeAbc stats0 0 100000).doc.metaOf.actual_size = 113 ∧
    (fast_build genEcho poolLargeAbc stats0 0 100000).output.length = 118 ∧
    (113 : Nat) ≠ 118 := by
  refine ⟨by decide, by decide, by decide⟩

/-- Claim C3 as amended: on the Fast parallel path the printed `actual_size`
is the length of the assembled string up to and including the `actual_size`
label — the true final length exceeds it by exactly the digits of
`actual_size` plus the two closing braces. -/
theorem claim_C3_amended (g : Gen) (pool : Pool) (stats : ChunkPoolStats)
    (gi target : Nat) (h : 100000 ≤ target) :
    (fast_build g pool stats gi target).output.length =
      (fast_build g pool stats gi target).doc.metaOf.actual_size
        + (natToString (fast_build g pool stats gi target).doc.metaOf.actual_size).length
        + 2 := by
  unfold fast_build
  rw [if_neg (Nat.not_lt.mpr h)]
  unfold build_parallel
  simp only [Doc.metaOf, String.length_append]
  have hM : metaClose.length = 2 := by decide
  omega

/-- Witness for the amended claim C3 at target 100,000. -/
theorem claim_C3_amended_witness :
    (fast_build genEcho poolLargeAbc stats0 0 100000).output.length =
      (fast_build genEcho poolLargeAbc stats0 0 100000).doc.metaOf.actual_size
        + (natToString
            (fast_build genEcho poolLargeAbc stats0 0 100000).doc.metaOf.actual_size).length
        + 2 :=
  claim_C3_amended genEcho poolLargeAbc stats0 0 100000 (by decide)

set_option maxRecDepth 40000 in
/-- Counterexample to claim C5: streaming target 2,000,000 with one Large
fragment `"L"` and one XLarge fragment `"X"` pooled.  The largest-fits rule
applied to the current remaining size (2,000,000 ≥ 1,048,576) selects
XLarge, so the claim requires the first pop to come from the XLarge class
(`"X"`); the code instead pops `"L"` from the Large class, because it
applies the rule to `min(remaining, chunk_size)` with the construction-time
`chunk_size = 102,400`.  Likewise the first pool-miss fallback (the second
element, observable because the `genEcho` oracle echoes the requested size)
is generated with size 102,400, not the remainder 1,999,999. -/
theorem claim_C5_counterexample :
    chooseChunkSize 2000000 = ChunkSize.XLarge ∧
    poolLX.xlarge = ["X"] ∧ poolLX.large = ["L"] ∧
    (into_stream genEcho poolLX stats0 0 2000000).elems.head? = some "L" ∧
    (into_stream genEcho poolLX stats0 0 2000000).elems[1]? = some (natToString 102400) ∧
    natToString 102400 ≠ natToString 1999999 := by
  refine ⟨by decide, by decide, by decide, by decide, by decide, by decide⟩

/-- Claim C5 as amended: on every iteration of the streaming loop the pool
pop targets the class selected by the largest-fits rule applied to
`min(current remaining, chunk_size)` — capped by the construction-time
stream class size rather than independent of it — and on a pool miss the
fallback fragment is freshly generated sized to that same capped value.  On
a hit the popped fragment is the last element of that class's collection,
which shrinks by exactly that element; the hit/miss counters move
accordingly. -/
theorem claim_C5_amended_step (g : Gen) (chunk_size fuel : Nat) (items elems : List String)
    (remaining cc : Nat) (pool : Pool) (stats : ChunkPoolStats) (gi : Nat)
    (h : 500 < remaining) :
    (pool.classChunks (chooseChunkSize (min remaining chunk_size)) = [] →
      streamLoop g chunk_size (fuel + 1) items elems remaining cc pool stats gi =
        streamLoop g chunk_size fuel
          ((if 0 < cc then items ++ [","] else items)
            ++ [g.arrElem gi (min remaining chunk_size)])
          (elems ++ [g.arrElem gi (min remaining chunk_size)])
          (remaining - (g.arrElem gi (min remaining chunk_size)).length) (cc + 1)
          pool
          ⟨stats.total_chunks, stats.memory_usage_bytes, stats.cache_hits,
            stats.cache_misses + 1, stats.background_generations⟩
          (gi + 1)) ∧
    (∀ v c, pool.classChunks (chooseChunkSize (min remaining chunk_size)) = v ++ [c] →
      streamLoop g chunk_size (fuel + 1) items elems remaining cc pool stats gi =
        streamLoop g chunk_size fuel
          ((if 0 < cc then items ++ [","] else items) ++ [c]) (elems ++ [c])
          (remaining - c.length) (cc + 1)
          (pool.setClass (chooseChunkSize (min remaining chunk_size)) v)
          ⟨stats.total_chunks - 1, stats.memory_usage_bytes, stats.cache_hits + 1,
            stats.cache_misses, stats.background_generations⟩
          gi) := by
  constructor
  · intro hempty
    have hgc : get_chunk pool stats (chooseChunkSize (min remaining chunk_size)) =
        (none, pool,
          ⟨stats.total_chunks, stats.memory_usage_bytes, stats.cache_hits,
            stats.cache_misses + 1, stats.background_generations⟩) := by
      unfold get_chunk
      rw [hempty]
      rfl
    simp [streamLoop, h, hgc]
  · intro v c hvc
    have hgc : get_chunk pool stats (chooseChunkSize (min remaining chunk_size)) =
        (some c, pool.setClass (chooseChunkSize (min remaining chunk_size)) v,
          ⟨stats.total_chunks - 1, stats.memory_usage_bytes, stats.cache_hits + 1,
            stats.cache_misses, stats.background_generations⟩) := by
      unfold get_chunk
      rw [hvc, List.getLast?_concat, List.dropLast_concat]
    simp [streamLoop, h, hgc]

/-- Witness for the amended claim C5: a concrete miss step (Small class of
`poolLX` is empty at remaining 501) and a concrete hit step (Large class
holds `"L"` at remaining 200,000 with stream chunk size 102,400). -/
theorem claim_C5_amended_step_witness :
    (streamLoop genEcho 102400 1 [] [] 501 0 poolLX stats0 0 =
      streamLoop genEcho 102400 0 [genEcho.arrElem 0 (min 501 102400)]
        [genEcho.arrElem 0 (min 501 102400)]
        (501 - (genEcho.arrElem 0 (min 501 102400)).length) 1 poolLX
        ⟨stats0.total_chunks, stats0.memory_usage_bytes, stats0.cache_hits,
          stats0.cache_misses + 1, stats0.background_generations⟩ 1) ∧
    (streamLoop genEcho 102400 1 [] [] 200000 0 poolLX stats0 0 =
      streamLoop genEcho 102400 0 ["L"] ["L"] (200000 - ("L" : String).length) 1
        (poolLX.setClass (chooseChunkSize (min 200000 102400)) [])
        ⟨stats0.total_chunks - 1, stats0.memory_usage_bytes, stats0.cache_hits + 1,
          stats0.cache_misses, stats0.background_generations⟩ 0) := by
  constructor
  · have h1 := (claim_C5_amended_step genEcho 102400 0 [] [] 501 0 poolLX stats0 0
      (by decide)).1 (by decide)
    simpa using h1
  · have h2 := (claim_C5_amended_step genEcho 102400 0 [] [] 200000 0 poolLX stats0 0
      (by decide)).2 [] "L" (by decide)
    simpa using h2

/-- Claim C6: `build_response(50000)` terminates (the model is a total
function; the loop's fuel mirrors the 1000-fragment cap) with
`chunk_count ≤ 1000` and total output length at most `2 × 50000`, and its
loop stopped for one of the three stated reasons: the remaining budget fell
to 500 bytes or below, 1000 fragments were appended, or the accumulated
output exceeded twice the target.  The length bound only constrains the
fragments this run can touch: with 50,000 remaining the largest-fits rule
never selects Large or XLarge, so only Small and Medium pool fragments are
popped, and the miss fallback only requests generation of at most the
1,024-byte Small nominal size; for those, 40,000 bytes comfortably covers
the out-of-scope content source's contract (nominal sizes at most 10,240
bytes, overshoot bounded by its 3x safety multiplier).  XLarge-sized pool
content is irrelevant to and unconstrained by this claim. -/
theorem claim_C6_build_response_bounds (g : Gen) (pool : Pool) (stats : ChunkPoolStats)
    (gi : Nat)
    (hpS : ∀ c, c ∈ pool.classChunks ChunkSize.Small → c.length ≤ 40000)
    (hpM : ∀ c, c ∈ pool.classChunks ChunkSize.Medium → c.length ≤ 40000)
    (hg : ∀ i s, s ≤ ChunkSize.Small.target_bytes → (g.arrElem i s).length ≤ 40000) :
    (build_response g pool stats gi 50000).doc.metaOf.chunk_count ≤ 1000 ∧
    (build_response g pool stats gi 50000).output.length ≤ 2 * 50000 ∧
    ((build_response g pool stats gi 50000).loopRemaining ≤ 500 ∨
      (build_response g pool stats gi 50000).doc.metaOf.chunk_count = 1000 ∨
      2 * 50000 < (build_response g pool stats gi 50000).body.length) := by
  unfold build_response
  rw [if_neg (by decide)]
  simp only [Doc.metaOf, String.length_append]
  obtain ⟨new, he1, he2, he3⟩ := buildLoop_elems g 50000 1000 gcOpen [] 50000 0 true pool stats gi
  have hlen := buildLoop_length_le g 50000 40000 hg 1000 gcOpen [] 50000 0 true pool stats gi
    (by simp only [ChunkSize.target_bytes]; omega) hpS hpM
  have hexit := buildLoop_exit g 50000 1000 gcOpen [] 50000 0 true pool stats gi
  have hgcl : gcOpen.length = 19 := by decide
  have h50 : (natToString 50000).length = 5 := by decide
  have hA : cpMetaA.length = 56 := by decide
  have hB : cpMetaB.length = 15 := by decide
  have hC : cpMetaC.length = 15 := by decide
  have hM : metaClose.length = 2 := by decide
  have hcc : (buildLoop g 50000 1000 gcOpen [] 50000 0 true pool stats gi).chunk_count ≤ 1000 := by
    rw [he2]; omega
  refine ⟨hcc, ?_, ?_⟩
  · have hdig : (natToString
        ((buildLoop g 50000 1000 gcOpen [] 50000 0 true pool stats gi).result
          ++ cpMetaA ++ natToString 50000 ++ cpMetaB).length).length ≤ 6 := by
      refine natToString_length_le _ 6 (by norm_num) ?_
      have h6 : (10 : Nat) ^ 6 = 1000000 := by norm_num
      rw [h6]
      simp only [String.length_append]
      omega
    have hdig2 : (natToString
        (buildLoop g 50000 1000 gcOpen [] 50000 0 true pool stats gi).chunk_count).length ≤ 4 := by
      refine natToString_length_le _ 4 (by norm_num) ?_
      have h4 : (10 : Nat) ^ 4 = 10000 := by norm_num
      rw [h4]
      omega
    simp only [String.length_append] at hdig
    omega
  · rcases hexit with h1 | h1 | h1
    · left; exact h1
    · right; left; rw [h1]
    · right; right; omega

/-- Witness for claim C6: the empty pool with a one-byte-fragment oracle
satisfies the scoped 40,000-byte fragment bounds. -/
theorem claim_C6_build_response_bounds_witness :
    (build_response genTiny poolEmpty stats0 0 50000).doc.metaOf.chunk_count ≤ 1000 ∧
    (build_response genTiny poolEmpty stats0 0 50000).output.length ≤ 2 * 50000 ∧
    ((build_response genTiny poolEmpty stats0 0 50000).loopRemaining ≤ 500 ∨
      (build_response genTiny poolEmpty stats0 0 50000).doc.metaOf.chunk_count = 1000 ∨
      2 * 50000 < (build_response genTiny poolEmpty stats0 0 50000).body.length) :=
  claim_C6_build_response_bounds genTiny poolEmpty stats0 0
    (by intro c hc; simp [Pool.classChunks, poolEmpty] at hc)
    (by intro c hc; simp [Pool.classChunks, poolEmpty] at hc)
    (by intro i s hs; show ("x" : String).length ≤ 40000; decide)

/-- Claim C8: a maintenance tick evaluates the memory budget gate before any
generation — if the estimated usage is at or above the budget the pool is
returned untouched, regardless of deficiency — and otherwise at most one
size class receives fragments that tick: either the pool is unchanged, or
exactly one under-threshold class is extended by at most 3 fresh fragments
while every other class is untouched. -/
theorem claim_C8_maintenance_tick (g : Gen) (cfg : ChunkPoolConfig) (pool : Pool)
    (stats : ChunkPoolStats) (gi : Nat) :
    (cfg.max_memory_mb * 1024 * 1024 ≤ estimate_memory_usage pool →
      maintenance_tick g cfg pool stats gi = (pool, stats, gi)) ∧
    ((maintenance_tick g cfg pool stats gi).1 = pool ∨
      ∃ size new, new.length ≤ 3 ∧
        (pool.classChunks size).length < cfg.min_chunks_per_size ∧
        (maintenance_tick g cfg pool stats gi).1
          = pool.setClass size (pool.classChunks size ++ new) ∧
        ∀ cs, cs ≠ size →
          (maintenance_tick g cfg pool stats gi).1.classChunks cs
            = pool.classChunks cs) := by
  constructor
  · intro h
    have hmem : has_memory_available cfg pool = false := by
      unfold has_memory_available
      simp
      omega
    unfold maintenance_tick should_generate_chunks
    rw [hmem]
    rfl
  · by_cases hs : should_generate_chunks cfg pool
    · unfold maintenance_tick
      rw [if_pos hs]
      unfold generate_background_chunks
      cases hct : chunks_to_generate cfg pool with
      | nil => left; rfl
      | cons head rest =>
        rcases head with ⟨size, count⟩
        right
        refine ⟨size, (generate_chunks_parallel g size count gi).1, ?_, ?_, ?_, ?_⟩
        · rw [generate_chunks_parallel_length]
          exact (chunks_to_generate_mem cfg pool size count
            (by rw [hct]; exact List.mem_cons_self _ _)).2
        · exact (chunks_to_generate_mem cfg pool size count
            (by rw [hct]; exact List.mem_cons_self _ _)).1
        · rfl
        · intro cs hcs
          simp only []
          rw [classChunks_setClass, if_neg hcs]
    · left
      unfold maintenance_tick
      rw [if_neg hs]

/-- Witness for claim C8: with a zero memory budget the gate fires and the
tick is the identity (discharging both parts at the same concrete state). -/
theorem claim_C8_maintenance_tick_witness :
    maintenance_tick genTiny cfg0 poolEmpty stats0 0 = (poolEmpty, stats0, 0) ∧
    ((maintenance_tick genTiny cfg0 poolEmpty stats0 0).1 = poolEmpty ∨
      ∃ size new, new.length ≤ 3 ∧
        (poolEmpty.classChunks size).length < cfg0.min_chunks_per_size ∧
        (maintenance_tick genTiny cfg0 poolEmpty stats0 0).1
          = poolEmpty.setClass size (poolEmpty.classChunks size ++ new) ∧
        ∀ cs, cs ≠ size →
          (maintenance_tick genTiny cfg0 poolEmpty stats0 0).1.classChunks cs
            = poolEmpty.classChunks cs) :=
  ⟨(claim_C8_maintenance_tick genTiny cfg0 poolEmpty stats0 0).1 (by decide),
   (claim_C8_maintenance_tick genTiny cfg0 poolEmpty stats0 0).2⟩

end Daddle
